import Mathlib

/-!
# pa4-endfs.c: an encrypting mirror filesystem

A shallow embedding of `src/pa4-endfs.c` and proofs about it.

* C strings (`char *`) are byte lists read up to the first NUL (`cstr`); a
  pointer that may be `NULL` is an `Option`.
* A `char buf[N]` that the code fills is modelled by the bytes stored from
  `buf[0]` on.  `strcpy`/`strcat` do not look at `N`; a store past the end of
  the array is undefined behaviour, which the model renders as `none`.
* stdio streams are a byte list with a position (`FILE`); the backing store
  is a `World`.
* `do_crypt` (declared in `aes-crypt.h`) is a parameter, `Transform`.
* A count kept in an `int` goes through `int_of_size_t`; the FUSE protocol keeps request
  sizes far below `2 ^ 31`, and the theorems on `xmp_read` and `xmp_write` say so as a
  hypothesis.
-/

namespace Endfs

/-- An octet. -/
abbrev Byte := Fin 256

/-- The ASCII bytes of a string literal, for concrete inputs. -/
def bytes (s : String) : List Byte := s.toList.map (fun c => Fin.ofNat c.toNat)

/-- Capacity of the path buffers: `#define PATH 255`. -/
def PATH : Nat := 255

/-- Value of errno for a missing file. -/
def ENOENT : Int := 2

/-- Value of errno for a refused access. -/
def EACCES : Int := 13

/-- Value of errno for a name that is too long. -/
def ENAMETOOLONG : Int := 36

/-- The C string found at a pointer: the bytes before the first NUL. -/
def cstr : List Byte → List Byte
  | [] => []
  | b :: s => if b = 0 then [] else b :: cstr s

/-- Result of `strcpy(dst, src)`: the bytes stored from `dst[0]` on, the string at
`src` and its terminator. -/
def strcpy (src : List Byte) : List Byte := cstr src ++ [0]

/-- Result of `strcat(dst, src)`: the string already at `dst`, then the string at
`src`, then the terminator. -/
def strcat (dst src : List Byte) : List Byte := cstr dst ++ cstr src ++ [0]

/-- The mount context, `struct xmp`; each field is a `char *`. -/
structure xmp where
  input : Option (List Byte)
  output : Option (List Byte)
  key : Option (List Byte)
  deriving DecidableEq

/-- Path translation, `mirror(mirDir, path)` with `char mirDir[PATH]`:
`strcpy(mirDir, dir); strcat(mirDir, path); return 0;`.  The result is the return value
and the bytes stored from `mirDir[0]` on.  `none` stands for undefined behaviour: the
`strcpy` from a `NULL` mirror root, or a `strcpy` or `strcat` that stores more than the
`PATH` bytes every caller's `char newPath[PATH]` has.  Neither call checks a length. -/
def mirror (info : xmp) (path : List Byte) : Option (Int × List Byte) :=
  match info.input with
  | none => none
  | some dir =>
    let mirDir := strcpy dir
    if PATH < mirDir.length then none
    else
      let mirDir := strcat mirDir path
      if PATH < mirDir.length then none
      else some (0, mirDir)

/-! ## stdio streams and the backing store -/

/-- A stdio stream: the bytes of the file behind it and the position indicator. -/
structure FILE where
  data : List Byte
  pos : Nat

/-- The call `fseek(f, offset, SEEK_SET)`: a negative offset fails and leaves the position
where it was; any other offset is accepted, also one beyond the end of the data. -/
def fseek (f : FILE) (offset : Int) : FILE :=
  if offset < 0 then f else { f with pos := offset.toNat }

/-- The call `fread(buf, 1, size, f)`: the count, the bytes copied to `buf`, the stream. -/
def fread (size : Nat) (f : FILE) : Nat × List Byte × FILE :=
  let got := (f.data.drop f.pos).take size
  (got.length, got, { f with pos := f.pos + got.length })

/-- The call `fwrite(buf, 1, size, f)`: the count and the stream.  Writing at a position
beyond the end leaves a gap that reads as zero bytes; writing nothing changes nothing. -/
def fwrite (buf : List Byte) (size : Nat) (f : FILE) : Nat × FILE :=
  let src := buf.take size
  if src = [] then (0, f)
  else
    let old := f.data ++ List.replicate (f.pos - f.data.length) 0
    (src.length,
      { data := old.take f.pos ++ src ++ old.drop (f.pos + src.length),
        pos := f.pos + src.length })

/-- Conversion of a `size_t` count to the `int` the handlers keep it in. -/
def int_of_size_t (n : Nat) : Int :=
  if n % 2 ^ 32 < 2 ^ 31 then ((n % 2 ^ 32 : Nat) : Int) else ((n % 2 ^ 32 : Nat) : Int) - 2 ^ 32

/-- The content transform behind `do_crypt`: from the action (`1` encrypt, `0` decrypt),
the passphrase and the whole input to the status (`0` is failure) and the output. -/
structure Transform where
  run : Int → List Byte → List Byte → Int × List Byte

/-- Modelled from the spec: `do_crypt(in, out, action, key)` of `aes-crypt.h`, whose body
is not part of the source tree.  A whole-stream transform: it consumes `in` from its
position to the end and writes what the transform yields to `out` at its position; the
result is the transform's status and the output stream. -/
def do_crypt (T : Transform) (inp out : FILE) (action : Int) (key : List Byte) : Int × FILE :=
  let r := T.run action key (inp.data.drop inp.pos)
  (r.1, (fwrite r.2 r.2.length out).2)

/-- The state the handlers run against.  `files` gives the content of the regular file
at a real path; `rdErr` and `wrErr` give the errno with which the daemon is refused when
it opens a path for reading or for writing (creating it, for a path with no file);
`privileged` says whether the daemon's credentials override permission bits; `tmpErr` is
the errno with which `tmpfile()` fails; `errno` the value of `errno` on entry. -/
structure World where
  files : List Byte → Option (List Byte)
  rdErr : List Byte → Option Int
  wrErr : List Byte → Option Int
  privileged : Bool
  tmpErr : Option Int
  errno : Int

/-- The world with the file at `path` holding `content`; who may open it stays as it was. -/
def World.store (w : World) (path content : List Byte) : World :=
  { w with files := fun q => if q = path then some content else w.files q }

/-- The world with a new, empty file at `path` that the daemon owns, refused for reading
and for writing as `rd` and `wr` say. -/
def World.create (w : World) (path : List Byte) (rd wr : Option Int) : World :=
  { w with
    files := fun q => if q = path then some [] else w.files q
    rdErr := fun q => if q = path then rd else w.rdErr q
    wrErr := fun q => if q = path then wr else w.wrErr q }

/-- Whether permission bits grant the owner read access: `S_IRUSR`, octal 0400. -/
def ownerRead (mode : Nat) : Bool := mode / 256 % 2 = 1

/-- Whether permission bits grant the owner write access: `S_IWUSR`, octal 0200. -/
def ownerWrite (mode : Nat) : Bool := mode / 128 % 2 = 1

/-- The errno, if any, with which an open is refused on permission bits. -/
def refusal (allowed : Bool) : Option Int := if allowed then none else some EACCES

/-- The call `fopen(path, "r")`: the stream at position 0, or the errno of a `NULL` result. -/
def fopen_r (w : World) (path : List Byte) : Except Int FILE :=
  match w.rdErr (cstr path) with
  | some e => .error e
  | none =>
    match w.files (cstr path) with
    | none => .error ENOENT
    | some c => .ok ⟨c, 0⟩

/-- The call `fopen(path, "w")`: the file is truncated to length zero, or created (with
bits 0666, none masked after the `umask(0)` of `main`); `none` is a `NULL` result. -/
def fopen_w (w : World) (path : List Byte) : Option (World × FILE) :=
  match w.wrErr (cstr path) with
  | some _ => none
  | none =>
    match w.files (cstr path) with
    | some _ => some (w.store (cstr path) [], ⟨[], 0⟩)
    | none => some (w.create (cstr path) none none, ⟨[], 0⟩)

/-- The call `fclose` on a stream opened by `fopen_w`: its data reaches the file. -/
def fclose_w (w : World) (path : List Byte) (f : FILE) : World :=
  w.store (cstr path) f.data

/-- The call `tmpfile()`: an empty stream, or the errno of a `NULL` result. -/
def tmpfile (w : World) : Except Int FILE :=
  match w.tmpErr with
  | some e => .error e
  | none => .ok ⟨[], 0⟩

/-- The call `creat(path, mode)`, or the errno of a `-1` result.  A file that is there is
truncated and keeps its permission bits; a new one gets the bits of `mode` (none masked
after the `umask(0)` of `main`), and these decide whether the daemon may open it later. -/
def creat (w : World) (path : List Byte) (mode : Nat) : Except Int World :=
  match w.wrErr (cstr path) with
  | some e => .error e
  | none =>
    match w.files (cstr path) with
    | some _ => .ok (w.store (cstr path) [])
    | none =>
      .ok (w.create (cstr path) (refusal (w.privileged || ownerRead mode))
        (refusal (w.privileged || ownerWrite mode)))

/-! ## The content handlers -/

/-- The handler `xmp_read(path, buf, size, offset, fi)`: the return value and the bytes
copied to `buf`.  `none` is undefined behaviour (a `NULL` mirror root or passphrase, or a
real path that overflows `char newPath[PATH]`). -/
def xmp_read (T : Transform) (info : xmp) (w : World) (path : List Byte) (size : Nat)
    (offset : Int) : Option (Int × List Byte) :=
  match mirror info path with
  | none => none
  | some (_, newPath) =>
    match fopen_r w newPath with
    | .error e => some (-e, [])
    | .ok fp =>
      match tmpfile w with
      | .error e => some (-e, [])
      | .ok tmp =>
        match info.key with
        | none => none
        | some key =>
          -- a zero status is reported on stderr and otherwise ignored
          let tmp := (do_crypt T fp tmp 0 key).2
          let tmp := fseek tmp offset
          let rd := fread size tmp
          let res := int_of_size_t rd.1
          let res := if res = -1 then -w.errno else res
          some (res, rd.2.1)

/-- The handler `xmp_write(path, buf, size, offset, fi)`: the return value and the world
afterwards.  `none` is undefined behaviour (a `NULL` mirror root or passphrase, a real path
that overflows `char newPath[PATH]`, or the unchecked `fopen(newPath, "w")` returning
`NULL`).  The closing `close(fd)` on the
never-assigned `fd` is left out. -/
def xmp_write (T : Transform) (info : xmp) (w : World) (path buf : List Byte) (size : Nat)
    (offset : Int) : Option (Int × World) :=
  match mirror info path with
  | none => none
  | some (_, newPath) =>
    match fopen_r w newPath with
    | .error e => some (-e, { w with errno := e })
    | .ok fp =>
      match tmpfile w with
      | .error e => some (-e, { w with errno := e })
      | .ok tmp =>
        match info.key with
        | none => none
        | some key =>
          let tmp := (do_crypt T fp tmp 0 key).2
          let tmp := fseek tmp offset
          let wr := fwrite buf size tmp
          let res := int_of_size_t wr.1
          let res := if res = -1 then -w.errno else res
          match fopen_w w newPath with
          | none => none
          | some (w1, fp) =>
            let tmp := fseek wr.2 0
            let fp := (do_crypt T tmp fp 1 key).2
            some (res, fclose_w w1 newPath fp)

/-- The handler `xmp_create(path, mode, fi)`: the return value and the world afterwards;
`none` is undefined behaviour (a `NULL` mirror root, or a real path that overflows
`char newPath[PATH]`). -/
def xmp_create (info : xmp) (w : World) (path : List Byte) (mode : Nat) :
    Option (Int × World) :=
  match mirror info path with
  | none => none
  | some (_, newPath) =>
    match creat w newPath mode with
    | .error e => some (-e, { w with errno := e })
    | .ok w1 => some (0, w1)

/-! ## Handlers that forward one system call -/

/-- The system calls the forwarding handlers below issue, with their path arguments. -/
inductive Syscall where
  | symlink (target linkpath : List Byte)
  | rename (oldpath newpath : List Byte)
  | link (oldpath newpath : List Byte)
  | chmod (path : List Byte) (mode : Nat)
  | lchown (path : List Byte) (uid gid : Nat)
  deriving DecidableEq

/-- The underlying filesystem: for each call its return value and the errno it sets. -/
abbrev Kernel := Syscall → Int × Int

/-- The tail shared by the forwarding handlers: `if (res == -1) return -errno; return 0;`. -/
def forward (k : Kernel) (call : Syscall) : Syscall × Int :=
  (call, if (k call).1 = -1 then -(k call).2 else 0)

/-- The handler `xmp_symlink(from, to)`: the call it issues and its return value. -/
def xmp_symlink (k : Kernel) (_info : xmp) (src dst : List Byte) : Option (Syscall × Int) :=
  some (forward k (.symlink (cstr src) (cstr dst)))

/-- The handler `xmp_rename(from, to)`: the call it issues and its return value. -/
def xmp_rename (k : Kernel) (_info : xmp) (src dst : List Byte) : Option (Syscall × Int) :=
  some (forward k (.rename (cstr src) (cstr dst)))

/-- The handler `xmp_link(from, to)`: the call it issues and its return value. -/
def xmp_link (k : Kernel) (_info : xmp) (src dst : List Byte) : Option (Syscall × Int) :=
  some (forward k (.link (cstr src) (cstr dst)))

/-- The handler `xmp_chmod(path, mode)`: the call it issues and its return value; `none`
is undefined behaviour (a `NULL` mirror root, or a real path that overflows
`char newPath[PATH]`). -/
def xmp_chmod (k : Kernel) (info : xmp) (path : List Byte) (mode : Nat) :
    Option (Syscall × Int) :=
  match mirror info path with
  | none => none
  | some (_, newPath) => some (forward k (.chmod (cstr newPath) mode))

/-- The handler `xmp_chown(path, uid, gid)`: the call it issues and its return value;
`none` is undefined behaviour (a `NULL` mirror root, or a real path that overflows
`char newPath[PATH]`). -/
def xmp_chown (k : Kernel) (info : xmp) (path : List Byte) (uid gid : Nat) :
    Option (Syscall × Int) :=
  match mirror info path with
  | none => none
  | some (_, newPath) => some (forward k (.lchown (cstr newPath) uid gid))

/-! ## Start-up -/

/-- How `main` ends: it returns before mounting, or it returns what `fuse_main` returns
for the arguments listed. -/
inductive MainResult where
  | exit (status : Int) (stdout : String)
  | fuse_main (argc : Int) (argv : List (Option (List Byte))) (private_data : xmp)
  deriving DecidableEq

/-- The function `main(argc, argv)`, after its `umask(0)`.  `argv` is the array of
`argc + 1` pointers, the last one `NULL`; `realpath` is the library call, `NULL` for a
path that does not resolve. -/
def main (realpath : List Byte → Option (List Byte)) (argc : Int)
    (argv : List (Option (List Byte))) : MainResult :=
  if argc < 4 then .exit 1 "Not Enough Arguments... Exiting\n"
  else
    let mirror : xmp :=
      { input := (argv.getD 2 none).bind (fun s => realpath (cstr s))
        output := (argv.getD 3 none).bind (fun s => realpath (cstr s))
        key := argv.getD 1 none }
    let argv := argv.set 1 (argv.getD 3 none)
    let argv := argv.set 2 (argv.getD 4 none)
    let argc := argc - 2
    .fuse_main argc argv mirror

/-- The argument array the C runtime builds from the command-line tokens. -/
def cArgv (tokens : List (List Byte)) : List (Option (List Byte)) :=
  tokens.map some ++ [none]

/-- Whether `main` reached `fuse_main`. -/
def MainResult.mounts : MainResult → Bool
  | .exit _ _ => false
  | .fuse_main _ _ _ => true

/-- The first `argc` entries of the array handed to `fuse_main`, if it was called. -/
def MainResult.handed : MainResult → Option (List (Option (List Byte)))
  | .exit _ _ => none
  | .fuse_main argc argv _ => some (argv.take argc.toNat)

/-- The real path a virtual path is translated to: the string `mirror` leaves in the buffer. -/
def realPath (root path : List Byte) : List Byte := cstr root ++ cstr path

/-- What decrypting a stored content with passphrase `key` yields. -/
def decrypt (T : Transform) (key content : List Byte) : List Byte := (T.run 0 key content).2

/-- What encrypting a plaintext with passphrase `key` yields. -/
def encrypt (T : Transform) (key plain : List Byte) : List Byte := (T.run 1 key plain).2

/-- The bytes of a stream's file after `fwrite` of all of `b` at position `o`. -/
def written (d b : List Byte) (o : Nat) : List Byte :=
  if b = [] then d
  else
    (d ++ List.replicate (o - d.length) 0).take o ++ b
      ++ (d ++ List.replicate (o - d.length) 0).drop (o + b.length)

/-! ## Concrete inputs -/

/-- A toy whole-stream transform: both directions reverse the stream. -/
def revT : Transform := ⟨fun _ _ input => (1, input.reverse)⟩

/-- A mount context with root `/data` and passphrase `k`. -/
def info0 : xmp := ⟨some (bytes "/data"), some (bytes "/mnt"), some (bytes "k")⟩

/-- A world whose only file is `/data/f`, holding `content`. -/
def world0 (content : List Byte) : World :=
  { files := fun q => if q = bytes "/data/f" then some content else none
    rdErr := fun _ => none
    wrErr := fun _ => none
    privileged := false
    tmpErr := none
    errno := 0 }

/-- A world with no file at all, in which nothing is refused. -/
def emptyWorld : World :=
  { files := fun _ => none
    rdErr := fun _ => none
    wrErr := fun _ => none
    privileged := false
    tmpErr := none
    errno := 0 }

/-- A toy transform that fails in decrypt mode after yielding the first three bytes. -/
def failT : Transform :=
  ⟨fun action _ input => if action = 0 then (0, input.take 3) else (1, input)⟩

/-- A mirror root of 200 bytes. -/
def longRoot : List Byte := 47 :: List.replicate 199 97

/-- A virtual path of 100 bytes. -/
def longPath : List Byte := 47 :: List.replicate 99 98

/-- A `realpath` that resolves every path to itself. -/
def realpath0 : List Byte → Option (List Byte) := fun s => some s

/-- An underlying filesystem that knows the entries `/data/a` and `/data/b` only: a call
on them succeeds, a call on any other path fails with `ENOENT`. -/
def kernel0 : Kernel := fun call =>
  let known : List Byte → Bool := fun q => q = bytes "/data/a" || q = bytes "/data/b"
  let ok : Bool :=
    match call with
    | .symlink _ l => known l
    | .rename a b => known a && known b
    | .link a b => known a && known b
    | .chmod a _ => known a
    | .lchown a _ _ => known a
  if ok then (0, 0) else (-1, ENOENT)

/-! ## Facts about C strings -/

theorem cstr_append_zero (s t : List Byte) : cstr (cstr s ++ 0 :: t) = cstr s := by
  induction s with
  | nil => simp [cstr]
  | cons a s ih =>
    by_cases h : a = 0
    · simp [cstr, h]
    · simp [cstr, h, ih]

theorem cstr_of_not_mem (s : List Byte) (h : (0 : Byte) ∉ s) : cstr s = s := by
  induction s with
  | nil => simp [cstr]
  | cons a s ih =>
    have ha : a ≠ 0 := fun e => h (by simp [e])
    have hs : (0 : Byte) ∉ s := fun e => h (by simp [e])
    simp [cstr, ha, ih hs]

theorem zero_not_mem_cstr (s : List Byte) : (0 : Byte) ∉ cstr s := by
  induction s with
  | nil => simp [cstr]
  | cons a s ih =>
    by_cases h : a = 0
    · simp [cstr, h]
    · simp [cstr, h, ih]
      exact fun e => h e.symm

/-- What `mirror` stores when the real path and its terminator fit the buffer. -/
theorem mirror_eq (r : List Byte) (o k : Option (List Byte)) (p : List Byte)
    (hfit : (realPath r p).length < PATH) :
    mirror ⟨some r, o, k⟩ p = some (0, cstr r ++ cstr p ++ [0]) := by
  have hc : cstr (cstr r ++ [0]) = cstr r := cstr_append_zero r []
  have hlen : (cstr r).length + (cstr p).length < PATH := by
    simpa [realPath] using hfit
  have h1 : ¬ PATH < (cstr r ++ [0]).length := by
    simp only [List.length_append, List.length_singleton]; omega
  have h2 : ¬ PATH < (cstr r ++ cstr p ++ [0]).length := by
    simp only [List.length_append, List.length_singleton]; omega
  simp only [mirror, strcat, strcpy, hc, if_neg h1, if_neg h2]

/-- When the real path and its terminator do not fit the buffer, `mirror` stores out of
bounds. -/
theorem mirror_overflow (r : List Byte) (o k : Option (List Byte)) (p : List Byte)
    (hbig : PATH < (realPath r p).length + 1) :
    mirror ⟨some r, o, k⟩ p = none := by
  have hc : cstr (cstr r ++ [0]) = cstr r := cstr_append_zero r []
  have hlen : PATH < (cstr r).length + (cstr p).length + 1 := by
    simpa [realPath] using hbig
  have h2 : PATH < (cstr r ++ cstr p ++ [0]).length := by
    simp only [List.length_append, List.length_singleton]; omega
  by_cases h1 : PATH < (cstr r ++ [0]).length
  · simp only [mirror, strcpy, if_pos h1]
  · simp only [mirror, strcat, strcpy, hc, if_neg h1, if_pos h2]

/-- The string a handler finds in its `newPath` buffer is the real path. -/
theorem cstr_newPath (r p : List Byte) : cstr (cstr r ++ cstr p ++ [0]) = realPath r p := by
  have h0 : (0 : Byte) ∉ cstr r ++ cstr p := by
    simp [zero_not_mem_cstr]
  have h := cstr_append_zero (cstr r ++ cstr p) []
  rw [cstr_of_not_mem _ h0] at h
  simpa [realPath] using h

/-! ## Facts about streams -/

theorem int_of_size_t_small (n : Nat) (h : n < 2 ^ 31) : int_of_size_t n = (n : Int) := by
  have h1 : n % 2 ^ 32 = n := Nat.mod_eq_of_lt (by omega)
  unfold int_of_size_t
  rw [h1, if_pos h]

theorem int_of_size_t_ne (n : Nat) (h : n < 2 ^ 31) : int_of_size_t n ≠ -1 := by
  rw [int_of_size_t_small n h]
  omega

theorem fseek_nat (f : FILE) (o : Nat) : fseek f (o : Int) = ⟨f.data, o⟩ := by
  simp [fseek]

theorem fseek_zero (f : FILE) : fseek f 0 = ⟨f.data, 0⟩ := by
  simp [fseek]

theorem fwrite_fresh (d : List Byte) : (fwrite d d.length ⟨[], 0⟩).2.data = d := by
  by_cases h : d = []
  · simp [fwrite, h]
  · simp [fwrite, h]

theorem do_crypt_fresh (T : Transform) (c : List Byte) (a : Int) (key : List Byte) :
    (do_crypt T ⟨c, 0⟩ ⟨[], 0⟩ a key).2.data = (T.run a key c).2 := by
  simp [do_crypt, fwrite_fresh]

theorem fwrite_all (d b : List Byte) (o : Nat) :
    fwrite b b.length ⟨d, o⟩ = (if b = [] then 0 else b.length, ⟨written d b o, if b = [] then o else o + b.length⟩) := by
  by_cases h : b = []
  · simp [fwrite, written, h]
  · simp [fwrite, written, h]

theorem written_inside (d b : List Byte) (o : Nat) (h : o ≤ d.length) :
    written d b o = d.take o ++ b ++ d.drop (o + b.length) := by
  have h0 : o - d.length = 0 := by omega
  by_cases hb : b = []
  · simp [written, hb]
  · simp [written, hb, h0]

theorem written_beyond (d b : List Byte) (o : Nat) (h : d.length < o) (hb : b ≠ []) :
    written d b o = d ++ List.replicate (o - d.length) 0 ++ b := by
  have h1 : (d ++ List.replicate (o - d.length) (0 : Byte)).length = o := by
    simp; omega
  have h2 : (d ++ List.replicate (o - d.length) (0 : Byte)).take o
      = d ++ List.replicate (o - d.length) 0 := by
    rw [List.take_of_length_le (by omega)]
  have h3 : (d ++ List.replicate (o - d.length) (0 : Byte)).drop (o + b.length) = [] := by
    rw [List.drop_eq_nil_iff]; omega
  simp only [written, hb, if_false, h2, h3, List.append_nil]

/-! ## The content handlers on an openable backing file -/

/-- The handler `xmp_read` when the backing file opens and `tmpfile()` succeeds: whatever
status the transform reports, the bytes copied are the slice of its output at the offset. -/
theorem xmp_read_eq (T : Transform) (w : World) (r : List Byte) (out : Option (List Byte))
    (K path c : List Byte) (size o : Nat) (hfit : (realPath r path).length < PATH)
    (hrd : w.rdErr (realPath r path) = none) (hf : w.files (realPath r path) = some c)
    (htmp : w.tmpErr = none) :
    xmp_read T ⟨some r, out, some K⟩ w path size (o : Int) =
      some (if int_of_size_t (((decrypt T K c).drop o).take size).length = -1 then -w.errno
            else int_of_size_t (((decrypt T K c).drop o).take size).length,
            ((decrypt T K c).drop o).take size) := by
  simp only [xmp_read, mirror_eq _ _ _ _ hfit, fopen_r, cstr_newPath, hrd, hf, tmpfile, htmp,
    fseek_nat, do_crypt_fresh, fread, decrypt]

/-- The handler `xmp_write` when the backing file opens for reading and for writing and
`tmpfile()` succeeds: the file ends up holding the encryption of the decrypted content
with the payload written at the offset. -/
theorem xmp_write_eq (T : Transform) (w : World) (r : List Byte) (out : Option (List Byte))
    (K path c b : List Byte) (o : Nat) (hfit : (realPath r path).length < PATH)
    (hrd : w.rdErr (realPath r path) = none) (hwr : w.wrErr (realPath r path) = none)
    (hf : w.files (realPath r path) = some c) (htmp : w.tmpErr = none)
    (hsz : b.length < 2 ^ 31) :
    xmp_write T ⟨some r, out, some K⟩ w path b b.length (o : Int) =
      some ((b.length : Int),
        (w.store (realPath r path) []).store (realPath r path)
          (encrypt T K (written (decrypt T K c) b o))) := by
  have hres : (if int_of_size_t (if b = [] then 0 else b.length) = -1 then -w.errno
      else int_of_size_t (if b = [] then 0 else b.length)) = (b.length : Int) := by
    have h0 : (if b = [] then 0 else b.length) = b.length := by
      by_cases hb : b = [] <;> simp [hb]
    rw [h0, if_neg (int_of_size_t_ne _ hsz), int_of_size_t_small _ hsz]
  simp only [xmp_write, mirror_eq _ _ _ _ hfit, fopen_r, cstr_newPath, hrd, hf, tmpfile, htmp,
    fseek_nat, do_crypt_fresh, fwrite_all, fopen_w, hwr, fclose_w, hres, encrypt, decrypt]
  simp [do_crypt, fwrite_fresh, fseek_zero]

theorem store_files_self (w : World) (p c : List Byte) : (w.store p c).files p = some c := by
  simp [World.store]

/-- On a real path that does not fit `char newPath[PATH]` with its terminator, the content
handlers store out of bounds: their behaviour is undefined. -/
theorem handlers_overflow (T : Transform) (w : World) (r : List Byte)
    (out key : Option (List Byte)) (path buf : List Byte) (size mode : Nat) (offset : Int)
    (hbig : PATH < (realPath r path).length + 1) :
    xmp_read T ⟨some r, out, key⟩ w path size offset = none ∧
      xmp_write T ⟨some r, out, key⟩ w path buf size offset = none ∧
      xmp_create ⟨some r, out, key⟩ w path mode = none := by
  simp only [xmp_read, xmp_write, xmp_create, mirror_overflow _ _ _ _ hbig, and_self]

/-! ## Writing -/

/-- C1: when the backing file holds `encrypt(P,K)`, the transform obeys the round-trip
law, the real path fits `char newPath[PATH]` and the offset `o` is at most `len(P)`,
`xmp_write(path, B, len(B), o)` succeeds (both opens and `tmpfile()` go through, and
`len(B)` fits the `int` it is returned in): it returns `len(B)` and leaves a backing file whose decryption is
`P[0..o) ++ B ++ P[o+len(B)..)`, bytes `[o, o+len(B))` replaced and the others unchanged. -/
theorem xmp_write_replaces_range (T : Transform) (w : World) (r : List Byte)
    (out : Option (List Byte)) (K path P B : List Byte) (o : Nat)
    (hfit : (realPath r path).length < PATH)
    (hlaw : ∀ X, decrypt T K (encrypt T K X) = X)
    (hf : w.files (realPath r path) = some (encrypt T K P))
    (hrd : w.rdErr (realPath r path) = none) (hwr : w.wrErr (realPath r path) = none)
    (htmp : w.tmpErr = none) (ho : o ≤ P.length) (hsz : B.length < 2 ^ 31) :
    ∃ w1, xmp_write T ⟨some r, out, some K⟩ w path B B.length (o : Int)
        = some ((B.length : Int), w1) ∧
      (w1.files (realPath r path)).map (decrypt T K)
        = some (P.take o ++ B ++ P.drop (o + B.length)) := by
  refine ⟨_, xmp_write_eq T w r out K path _ B o hfit hrd hwr hf htmp hsz, ?_⟩
  rw [store_files_self, Option.map_some', hlaw, hlaw, written_inside _ _ _ ho]

/-- C1 at `P = "HELLOWORLD"`, `o = 5`, `B = "XXXXX"`: the file decrypts to `"HELLOXXXXX"`. -/
theorem xmp_write_replaces_range_witness :
    ∃ w1, xmp_write revT info0 (world0 (encrypt revT (bytes "k") (bytes "HELLOWORLD")))
        (bytes "/f") (bytes "XXXXX") 5 5 = some (5, w1) ∧
      (w1.files (bytes "/data/f")).map (decrypt revT (bytes "k"))
        = some (bytes "HELLOXXXXX") :=
  xmp_write_replaces_range revT (world0 (encrypt revT (bytes "k") (bytes "HELLOWORLD")))
    (bytes "/data") (some (bytes "/mnt")) (bytes "k") (bytes "/f") (bytes "HELLOWORLD")
    (bytes "XXXXX") 5 (by decide) (fun X => List.reverse_reverse X) (by decide) (by decide)
    (by decide) (by decide) (by decide) (by decide)

/-- C4: when the backing file holds `encrypt(P,K)`, the transform obeys the round-trip
law, the real path fits `char newPath[PATH]`, the payload `B` is not empty and the
offset `o` is beyond `n = len(P)`,
`xmp_write(path, B, len(B), o)` succeeds (both opens and `tmpfile()` go through, and
`len(B)` fits the `int` it is returned in): it returns `len(B)` and leaves a backing file
whose decryption is `P`, then `o - n` zero bytes, then `B`. -/
theorem xmp_write_zero_fills_gap (T : Transform) (w : World) (r : List Byte)
    (out : Option (List Byte)) (K path P B : List Byte) (o : Nat)
    (hfit : (realPath r path).length < PATH)
    (hlaw : ∀ X, decrypt T K (encrypt T K X) = X)
    (hf : w.files (realPath r path) = some (encrypt T K P))
    (hrd : w.rdErr (realPath r path) = none) (hwr : w.wrErr (realPath r path) = none)
    (htmp : w.tmpErr = none) (ho : P.length < o) (hB : B ≠ []) (hsz : B.length < 2 ^ 31) :
    ∃ w1, xmp_write T ⟨some r, out, some K⟩ w path B B.length (o : Int)
        = some ((B.length : Int), w1) ∧
      (w1.files (realPath r path)).map (decrypt T K)
        = some (P ++ List.replicate (o - P.length) 0 ++ B) := by
  refine ⟨_, xmp_write_eq T w r out K path _ B o hfit hrd hwr hf htmp hsz, ?_⟩
  rw [store_files_self, Option.map_some', hlaw, hlaw, written_beyond _ _ _ ho hB]

/-- C4 at `P = "HELLO"`, `o = 8`, `B = "XY"`: three zero bytes fill the gap. -/
theorem xmp_write_zero_fills_gap_witness :
    ∃ w1, xmp_write revT info0 (world0 (encrypt revT (bytes "k") (bytes "HELLO")))
        (bytes "/f") (bytes "XY") 2 8 = some (2, w1) ∧
      (w1.files (bytes "/data/f")).map (decrypt revT (bytes "k"))
        = some (bytes "HELLO" ++ [0, 0, 0] ++ bytes "XY") :=
  xmp_write_zero_fills_gap revT (world0 (encrypt revT (bytes "k") (bytes "HELLO")))
    (bytes "/data") (some (bytes "/mnt")) (bytes "k") (bytes "/f") (bytes "HELLO")
    (bytes "XY") 8 (by decide) (fun X => List.reverse_reverse X) (by decide) (by decide)
    (by decide) (by decide) (by decide) (by decide) (by decide)

/-- The handler `xmp_create` when the create is not refused and the mode grants the owner
read and write: it returns 0 and leaves a zero-length file that the daemon may open for
reading and for writing.  A file that was there keeps its bits, so it must be readable
already. -/
theorem xmp_create_ok (w : World) (r : List Byte) (out key : Option (List Byte))
    (path : List Byte) (mode : Nat) (hfit : (realPath r path).length < PATH)
    (hwr : w.wrErr (realPath r path) = none)
    (hold : w.files (realPath r path) ≠ none → w.rdErr (realPath r path) = none)
    (hmr : ownerRead mode = true) (hmw : ownerWrite mode = true) :
    ∃ w1, xmp_create ⟨some r, out, key⟩ w path mode = some (0, w1) ∧
      w1.files (realPath r path) = some [] ∧ w1.rdErr (realPath r path) = none ∧
      w1.wrErr (realPath r path) = none ∧ w1.tmpErr = w.tmpErr := by
  cases h : w.files (realPath r path) with
  | none =>
    refine ⟨w.create (realPath r path) (refusal (w.privileged || ownerRead mode))
      (refusal (w.privileged || ownerWrite mode)), ?_, ?_, ?_, ?_, rfl⟩
    · simp only [xmp_create, mirror_eq _ _ _ _ hfit, creat, cstr_newPath, hwr, h]
    · simp [World.create]
    · simp [World.create, refusal, hmr]
    · simp [World.create, refusal, hmw]
  | some c =>
    refine ⟨w.store (realPath r path) [], ?_, store_files_self _ _ _, ?_, hwr, rfl⟩
    · simp only [xmp_create, mirror_eq _ _ _ _ hfit, creat, cstr_newPath, hwr, h]
    · exact hold (by simp [h])

/-- C2: on a backing file just made by `xmp_create` (zero length, no ciphertext), with a
transform that obeys the round-trip law and yields nothing when decrypting empty input,
`xmp_write(path, B, len(B), 0)` followed by `xmp_read(path, len(B), 0)` returns the count
`len(B)` and exactly `B`, for every `B` (the non-empty ones included).  Assumed: the real
path fits `char newPath[PATH]`; the create is not refused and its mode grants the owner
read and write (a file that was there before keeps its bits and is readable); `tmpfile()`
succeeds; `len(B)` fits the `int` it is returned in. -/
theorem read_after_write_on_created (T : Transform) (w : World) (r : List Byte)
    (out : Option (List Byte)) (K path B : List Byte) (mode : Nat)
    (hfit : (realPath r path).length < PATH)
    (hlaw : ∀ X, decrypt T K (encrypt T K X) = X) (hempty : decrypt T K [] = [])
    (hwr : w.wrErr (realPath r path) = none)
    (hold : w.files (realPath r path) ≠ none → w.rdErr (realPath r path) = none)
    (hmr : ownerRead mode = true) (hmw : ownerWrite mode = true)
    (htmp : w.tmpErr = none) (hsz : B.length < 2 ^ 31) :
    ∃ w1 w2, xmp_create ⟨some r, out, some K⟩ w path mode = some (0, w1) ∧
      w1.files (realPath r path) = some [] ∧
      xmp_write T ⟨some r, out, some K⟩ w1 path B B.length 0 = some ((B.length : Int), w2) ∧
      xmp_read T ⟨some r, out, some K⟩ w2 path B.length 0 = some ((B.length : Int), B) := by
  obtain ⟨w1, hc, hf1, hrd1, hwr1, ht1⟩ :=
    xmp_create_ok w r out (some K) path mode hfit hwr hold hmr hmw
  have htmp1 : w1.tmpErr = none := ht1.trans htmp
  have hw := xmp_write_eq T w1 r out K path [] B 0 hfit hrd1 hwr1 hf1 htmp1 hsz
  have hr := xmp_read_eq T
    ((w1.store (realPath r path) []).store (realPath r path)
      (encrypt T K (written (decrypt T K []) B 0)))
    r out K path _ B.length 0 hfit hrd1 (store_files_self _ _ _) htmp1
  have hwB : written [] B 0 = B := by
    by_cases hB : B = [] <;> simp [written, hB]
  rw [hlaw, hempty, hwB, List.drop_zero, List.take_length,
    if_neg (int_of_size_t_ne _ hsz), int_of_size_t_small _ hsz, Nat.cast_zero] at hr
  rw [hempty, hwB, Nat.cast_zero] at hw
  exact ⟨w1, _, hc, hf1, hw, hr⟩

/-- C2 at `B = "DATA"` on a new file `/data/f` created with mode 0644 by an unprivileged
daemon: the read returns 4 bytes, `"DATA"`. -/
theorem read_after_write_on_created_witness :
    ∃ w1 w2, xmp_create info0 emptyWorld (bytes "/f") 420 = some (0, w1) ∧
      w1.files (bytes "/data/f") = some [] ∧
      xmp_write revT info0 w1 (bytes "/f") (bytes "DATA") 4 0 = some (4, w2) ∧
      xmp_read revT info0 w2 (bytes "/f") 4 0 = some (4, bytes "DATA") :=
  read_after_write_on_created revT emptyWorld (bytes "/data") (some (bytes "/mnt")) (bytes "k")
    (bytes "/f") (bytes "DATA") 420 (by decide) (fun X => List.reverse_reverse X) (by decide)
    (by decide) (by decide) (by decide) (by decide) (by decide) (by decide)

/-! ## Reading -/

/-- C3: when the real path fits `char newPath[PATH]` and the backing file opens and
decrypts to `P` of length `n` (so `tmpfile()` succeeded), `xmp_read` with length `l` (one that fits the `int` result) at offset `o ≥ 0`
returns a count that is no error code: `min(l, n - o)` when `o ≤ n` and 0 when `o > n`;
the bytes copied to the buffer are `P[o .. o+count)`. -/
theorem xmp_read_slice (T : Transform) (w : World) (r : List Byte)
    (out : Option (List Byte)) (K path c P : List Byte) (l o : Nat)
    (hfit : (realPath r path).length < PATH)
    (hf : w.files (realPath r path) = some c) (hP : decrypt T K c = P)
    (hrd : w.rdErr (realPath r path) = none) (htmp : w.tmpErr = none) (hl : l < 2 ^ 31) :
    ∃ count : Nat,
      xmp_read T ⟨some r, out, some K⟩ w path l (o : Int)
        = some ((count : Int), (P.drop o).take count) ∧
      (o ≤ P.length → count = min l (P.length - o)) ∧ (P.length < o → count = 0) := by
  have hlen : ((P.drop o).take l).length = min l (P.length - o) := by simp
  have hlt : ((P.drop o).take l).length < 2 ^ 31 := by
    rw [hlen]; exact lt_of_le_of_lt (min_le_left _ _) hl
  have hr := xmp_read_eq T w r out K path c l o hfit hrd hf htmp
  rw [hP, if_neg (int_of_size_t_ne _ hlt), int_of_size_t_small _ hlt, hlen] at hr
  refine ⟨min l (P.length - o), ?_, fun _ => rfl, fun h => ?_⟩
  · rw [hr]
    have hmin : min l (P.length - o) = min l (P.drop o).length := by simp
    rw [hmin, ← List.take_take, List.take_length]
  · have : P.length - o = 0 := by omega
    simp [this]

/-- C3 at `P = "HELLOWORLD"`: a read of 4 bytes at offset 8 returns the 2 bytes `"LD"`,
and a read of 4 bytes at offset 12, beyond the end, returns 0 bytes and no error. -/
theorem xmp_read_slice_witness :
    xmp_read revT info0 (world0 (encrypt revT (bytes "k") (bytes "HELLOWORLD")))
        (bytes "/f") 4 8 = some (2, bytes "LD") ∧
    xmp_read revT info0 (world0 (encrypt revT (bytes "k") (bytes "HELLOWORLD")))
        (bytes "/f") 4 12 = some (0, []) := by
  obtain ⟨c1, h1, hin, _⟩ := xmp_read_slice revT
    (world0 (encrypt revT (bytes "k") (bytes "HELLOWORLD")))
    (bytes "/data") (some (bytes "/mnt")) (bytes "k") (bytes "/f")
    (encrypt revT (bytes "k") (bytes "HELLOWORLD")) (bytes "HELLOWORLD") 4 8
    (by decide) (by decide) (by decide) (by decide) (by decide) (by decide)
  obtain ⟨c2, h2, _, hout⟩ := xmp_read_slice revT
    (world0 (encrypt revT (bytes "k") (bytes "HELLOWORLD")))
    (bytes "/data") (some (bytes "/mnt")) (bytes "k") (bytes "/f")
    (encrypt revT (bytes "k") (bytes "HELLOWORLD")) (bytes "HELLOWORLD") 4 12
    (by decide) (by decide) (by decide) (by decide) (by decide) (by decide)
  rw [hin (by decide)] at h1
  rw [hout (by decide)] at h2
  exact ⟨h1, h2⟩

/-- C9: when the real path fits `char newPath[PATH]`, the backing file opens, `tmpfile()`
succeeds and the transform reports
failure in decrypt mode (status 0), `xmp_read` with a size that fits the `int` result
still returns a non-negative count, not an error: the number of bytes copied, from the
given offset, out of the output the transform produced before failing. -/
theorem xmp_read_ignores_failure (T : Transform) (w : World) (r : List Byte)
    (out : Option (List Byte)) (K path c : List Byte) (size o : Nat)
    (hfit : (realPath r path).length < PATH)
    (hf : w.files (realPath r path) = some c) (hrd : w.rdErr (realPath r path) = none)
    (htmp : w.tmpErr = none) (_hfail : (T.run 0 K c).1 = 0) (hsz : size < 2 ^ 31) :
    xmp_read T ⟨some r, out, some K⟩ w path size (o : Int)
      = some (((((T.run 0 K c).2.drop o).take size).length : Int),
          ((T.run 0 K c).2.drop o).take size) := by
  have hlt : (((T.run 0 K c).2.drop o).take size).length < 2 ^ 31 := by
    rw [List.length_take]; exact lt_of_le_of_lt (min_le_left _ _) hsz
  have hr := xmp_read_eq T w r out K path c size o hfit hrd hf htmp
  simp only [decrypt] at hr
  rw [if_neg (int_of_size_t_ne _ hlt), int_of_size_t_small _ hlt] at hr
  exact hr

/-- C9 with a transform that fails after three bytes: a read of 10 bytes at offset 1 of
the file `"ABCDEF"` returns the count 2 and the bytes `"BC"`. -/
theorem xmp_read_ignores_failure_witness :
    (failT.run 0 (bytes "k") (bytes "ABCDEF")).1 = 0 ∧
    xmp_read failT info0 (world0 (bytes "ABCDEF")) (bytes "/f") 10 1 = some (2, bytes "BC") :=
  ⟨by decide,
    xmp_read_ignores_failure failT (world0 (bytes "ABCDEF")) (bytes "/data")
      (some (bytes "/mnt")) (bytes "k") (bytes "/f") (bytes "ABCDEF") 10 1
      (by decide) (by decide) (by decide) (by decide) (by decide) (by decide)⟩

/-! ## Path translation -/

/-- C5: for a mirror root `r` and a virtual path `p` (strings, so free of NUL) whose
concatenation and terminator fit the `PATH` bytes of the buffer, `mirror` returns 0 and
stores in the buffer exactly `r ++ p` and the terminator: the string it leaves there is
the concatenation, nothing inserted, removed or normalised. -/
theorem mirror_stores_concat (r p : List Byte) (out key : Option (List Byte))
    (hr : (0 : Byte) ∉ r) (hp : (0 : Byte) ∉ p) (hfit : (r ++ p).length < PATH) :
    mirror ⟨some r, out, key⟩ p = some (0, r ++ p ++ [0]) ∧ cstr (r ++ p ++ [0]) = r ++ p := by
  have hfit1 : (realPath r p).length < PATH := by
    rw [realPath, cstr_of_not_mem r hr, cstr_of_not_mem p hp]; exact hfit
  have h := mirror_eq r out key p hfit1
  have hc := cstr_newPath r p
  rw [cstr_of_not_mem r hr, cstr_of_not_mem p hp] at h
  rw [realPath, cstr_of_not_mem r hr, cstr_of_not_mem p hp] at hc
  exact ⟨h, hc⟩

/-- C5 at `r = "/data"`, `p = "/a/b"`: the buffer holds `"/data/a/b"`. -/
theorem mirror_stores_concat_witness :
    mirror ⟨some (bytes "/data"), none, none⟩ (bytes "/a/b")
        = some (0, bytes "/data/a/b" ++ [0]) ∧
      cstr (bytes "/data/a/b" ++ [0]) = bytes "/data/a/b" :=
  mirror_stores_concat (bytes "/data") (bytes "/a/b") none none (by decide) (by decide)
    (by decide)

/-- C6, refuted: with a root of 200 bytes and a path of 100 bytes the concatenation and
its terminator take 301 bytes, more than `PATH`, and `mirror` does not fail with
`-ENAMETOOLONG`: it makes no check and stores out of bounds (undefined behaviour). -/
theorem mirror_long_path_no_error :
    PATH < (longRoot ++ longPath).length + 1 ∧
      mirror ⟨some longRoot, none, none⟩ longPath = none ∧
      (mirror ⟨some longRoot, none, none⟩ longPath).map Prod.fst ≠ some (-ENAMETOOLONG) := by
  have hr : cstr longRoot = longRoot := by
    refine cstr_of_not_mem _ (fun h => ?_)
    rcases List.mem_cons.mp h with h | h
    · exact absurd h (by decide)
    · exact absurd (List.eq_of_mem_replicate h) (by decide)
  have hp : cstr longPath = longPath := by
    refine cstr_of_not_mem _ (fun h => ?_)
    rcases List.mem_cons.mp h with h | h
    · exact absurd h (by decide)
    · exact absurd (List.eq_of_mem_replicate h) (by decide)
  have hlen : PATH < (longRoot ++ longPath).length + 1 := by
    simp only [longRoot, longPath, PATH, List.length_append, List.length_cons,
      List.length_replicate]
    omega
  have hnone : mirror ⟨some longRoot, none, none⟩ longPath = none :=
    mirror_overflow _ _ _ _ (by rw [realPath, hr, hp]; exact hlen)
  refine ⟨hlen, hnone, ?_⟩
  rw [hnone]
  simp

/-- C6, amended: `mirror` makes no length check and has no failure path: for every mount
context and virtual path, the over-long ones included, it never fails with
`-ENAMETOOLONG`, and 0 is the only value it returns. -/
theorem mirror_never_name_too_long (info : xmp) (p : List Byte) :
    (mirror info p).map Prod.fst ≠ some (-ENAMETOOLONG) ∧
      ∀ ret buf, mirror info p = some (ret, buf) → ret = 0 := by
  have key : ∀ ret buf, mirror info p = some (ret, buf) → ret = 0 := by
    intro ret buf h
    obtain ⟨input, out, k⟩ := info
    cases input with
    | none => simp [mirror] at h
    | some dir =>
      simp only [mirror] at h
      by_cases h1 : PATH < (strcpy dir).length
      · simp [h1] at h
      · by_cases h2 : PATH < (strcat (strcpy dir) p).length
        · simp [h1, h2] at h
        · simp only [if_neg h1, if_neg h2, Option.some.injEq, Prod.mk.injEq] at h
          exact h.1.symm
  refine ⟨?_, key⟩
  cases hm : mirror info p with
  | none => simp
  | some v =>
    obtain ⟨ret, buf⟩ := v
    have h0 := key ret buf hm
    simp [h0, ENAMETOOLONG]

/-! ## Start-up -/

/-- C7: with `argc < 4` the function `main` returns 1 without calling `fuse_main`; with
`argc ≥ 4` it calls `fuse_main`. -/
theorem main_mounts_iff_four_tokens (realpath : List Byte → Option (List Byte)) (argc : Int)
    (argv : List (Option (List Byte))) :
    (argc < 4 → main realpath argc argv = .exit 1 "Not Enough Arguments... Exiting\n" ∧
        (main realpath argc argv).mounts = false) ∧
      (4 ≤ argc → (main realpath argc argv).mounts = true) := by
  constructor
  · intro h
    simp [main, h, MainResult.mounts]
  · intro h
    have h4 : ¬ argc < 4 := not_lt.mpr h
    simp [main, h4, MainResult.mounts]

/-- C7 at three tokens and at four tokens. -/
theorem main_mounts_iff_four_tokens_witness :
    (main realpath0 3 (cArgv [bytes "fs", bytes "k", bytes "/data"])).mounts = false ∧
      (main realpath0 4 (cArgv [bytes "fs", bytes "k", bytes "/data", bytes "/mnt"])).mounts
        = true :=
  ⟨((main_mounts_iff_four_tokens realpath0 3
      (cArgv [bytes "fs", bytes "k", bytes "/data"])).1 (by decide)).2,
    (main_mounts_iff_four_tokens realpath0 4
      (cArgv [bytes "fs", bytes "k", bytes "/data", bytes "/mnt"])).2 (by decide)⟩

/-- The array `main` hands to `fuse_main` for the tokens `exe pass root mnt o1 ... ok`:
slot 1 gets the mount point, slot 2 the first option (or the closing `NULL`), and every
later slot keeps what it held. -/
theorem main_handed (realpath : List Byte → Option (List Byte))
    (exe pass root mnt : List Byte) (opts : List (List Byte)) :
    (main realpath ((4 + opts.length : Nat) : Int)
        (cArgv (exe :: pass :: root :: mnt :: opts))).handed
      = some ((some exe :: some mnt :: (opts.map some ++ [none]).headD none :: some mnt
          :: (opts.map some ++ [none])).take (2 + opts.length)) := by
  have h4 : ¬ (((4 + opts.length : Nat) : Int) < 4) := by omega
  have ht : (((4 + opts.length : Nat) : Int) - 2).toNat = 2 + opts.length := by omega
  unfold main
  rw [if_neg h4]
  simp only [MainResult.handed, ht]
  cases opts <;> simp [cArgv]

/-- C10, at two bridge options: for `fs k /data /mnt -f -s` the four entries handed to the
bridge are `fs /mnt -f /mnt`; the second option `-s` is not among them, where the claim
requires `fs /mnt -f -s`. -/
theorem main_second_option_dropped :
    (main realpath0 6 (cArgv [bytes "fs", bytes "k", bytes "/data", bytes "/mnt",
        bytes "-f", bytes "-s"])).handed
      = some [some (bytes "fs"), some (bytes "/mnt"), some (bytes "-f"), some (bytes "/mnt")] ∧
    (main realpath0 6 (cArgv [bytes "fs", bytes "k", bytes "/data", bytes "/mnt",
        bytes "-f", bytes "-s"])).handed
      ≠ some [some (bytes "fs"), some (bytes "/mnt"), some (bytes "-f"), some (bytes "-s")] := by
  decide

/-! ## Forwarding handlers -/

/-- The handlers `xmp_chmod` and `xmp_chown` issue their call on the translated path, when
it fits `char newPath[PATH]`. -/
theorem xmp_chmod_chown_translated (k : Kernel) (r : List Byte) (out key : Option (List Byte))
    (path : List Byte) (mode uid gid : Nat) (hfit : (realPath r path).length < PATH) :
    xmp_chmod k ⟨some r, out, key⟩ path mode
        = some (forward k (.chmod (realPath r path) mode)) ∧
      xmp_chown k ⟨some r, out, key⟩ path uid gid
        = some (forward k (.lchown (realPath r path) uid gid)) := by
  simp only [xmp_chmod, xmp_chown, mirror_eq _ _ _ _ hfit, cstr_newPath, and_self]

/-- The handlers `xmp_symlink`, `xmp_rename` and `xmp_link` issue their call on the two
paths as given, whatever the mount context. -/
theorem xmp_two_path_handlers_untranslated (k : Kernel) (info : xmp) (src dst : List Byte) :
    xmp_symlink k info src dst = some (forward k (.symlink (cstr src) (cstr dst))) ∧
      xmp_rename k info src dst = some (forward k (.rename (cstr src) (cstr dst))) ∧
      xmp_link k info src dst = some (forward k (.link (cstr src) (cstr dst))) :=
  ⟨rfl, rfl, rfl⟩

/-- C8, at `xmp_rename("/a", "/b")` under the mirror root `/data`: the call issued is
`rename("/a", "/b")`, on the virtual paths, not `rename("/data/a", "/data/b")`; where the
underlying filesystem has the entries under `/data` the handler returns `-ENOENT` although
the call on the translated paths succeeds.  `xmp_link` and `xmp_symlink` do the same, while
`xmp_chmod` and `xmp_chown` do translate. -/
theorem xmp_rename_not_translated :
    xmp_rename kernel0 info0 (bytes "/a") (bytes "/b")
        = some (.rename (bytes "/a") (bytes "/b"), -ENOENT) ∧
      kernel0 (.rename (bytes "/data/a") (bytes "/data/b")) = (0, 0) ∧
      xmp_link kernel0 info0 (bytes "/a") (bytes "/b")
        = some (.link (bytes "/a") (bytes "/b"), -ENOENT) ∧
      xmp_symlink kernel0 info0 (bytes "/a") (bytes "/b")
        = some (.symlink (bytes "/a") (bytes "/b"), -ENOENT) ∧
      xmp_chmod kernel0 info0 (bytes "/a") 420
        = some (.chmod (bytes "/data/a") 420, 0) ∧
      xmp_chown kernel0 info0 (bytes "/a") 0 0
        = some (.lchown (bytes "/data/a") 0 0, 0) := by
  decide

end Endfs
